import Mathlib

/-!
Verification development for the scripting-execution core (`src/core/interpreter.h`
of dragonfly).  The repository ships only the interface header; the behaviour of
the Interpreter session (cache, command bridge, hashing, serialization) is
modelled from the specification, faithful to its words.  Definitions whose
implementation file is missing carry a doc comment starting
`Modelled from the spec:`.
-/

namespace Dfly

/-- A script body, as in `std::string_view body`: an exact byte sequence. -/
abbrev Body := List Nat

/-! ## Content Hasher (`Interpreter::FuncSha1`) -/

/-- Modelled from the spec: the implementation of `FuncSha1` (a SHA-1 digest,
computed in the missing `interpreter.cc`) is not in the interface header.  The
spec requires only "a 160-bit digest of the exact byte sequence of the script
body", pure and deterministic; modelled as a deterministic 160-bit fold of the
bytes. -/
def digest160 (body : Body) : Nat :=
  body.foldl (fun acc b => (acc * 257 + b % 256 + 1) % 2 ^ 160) 0

/-- One lowercase hexadecimal digit: 0..9 map to '0'..'9', 10..15 to 'a'..'f'. -/
def hexChar (n : Nat) : Char :=
  if n < 10 then Char.ofNat (48 + n) else Char.ofNat (87 + n)

/-- Big-endian fixed-width rendering of a digest as 40 lowercase hex digits. -/
def toHex40 (n : Nat) : List Char :=
  (List.range 40).map (fun i => hexChar (n / 16 ^ (39 - i) % 16))

/-- Modelled from the spec: `FuncSha1(body, fp)` writes the 40-character
lowercase hexadecimal rendering of the digest into `fp[0..39]` and the sentinel
`fp[40] = 0`.  The 41-character output buffer is modelled as the returned
character list. -/
def funcSha1 (body : Body) : List Char :=
  toHex40 (digest160 body) ++ [Char.ofNat 0]

/-- The function id handle (the 40 hex characters, without the sentinel). -/
def funcId (body : Body) : String :=
  String.mk (toHex40 (digest160 body))

/-- A character is a lowercase hexadecimal digit: '0'..'9' or 'a'..'f'. -/
def IsLowerHexDigit (c : Char) : Prop :=
  (48 ≤ c.toNat ∧ c.toNat ≤ 57) ∨ (97 ≤ c.toNat ∧ c.toNat ≤ 102)

instance (c : Char) : Decidable (IsLowerHexDigit c) := by
  unfold IsLowerHexDigit; infer_instance

/-! ## Serialization events (`ObjectExplorer`) -/

/-- The nine event kinds of the `ObjectExplorer` visitor contract
(`OnBool`, `OnString`, `OnDouble`, `OnInt`, `OnArrayStart`, `OnArrayEnd`,
`OnNil`, `OnStatus`, `OnError`).  The payload of `OnDouble` is kept opaque
(bit pattern) since no claim computes with it. -/
inductive Event where
  | onBool : Bool → Event
  | onString : String → Event
  | onDouble : Int → Event
  | onInt : Int → Event
  | onArrayStart : Nat → Event
  | onArrayEnd : Event
  | onNil : Event
  | onStatus : String → Event
  | onError : String → Event
deriving DecidableEq, Repr

/-- Modelled from the spec: the single tagged-variant value type shared by the
Result Serializer, the Command Bridge and the script-value adapter (§9 of the
spec); the script-side value space. -/
inductive Value where
  | vbool : Bool → Value
  | vstr : String → Value
  | vdouble : Int → Value
  | vint : Int → Value
  | varr : List Value → Value
  | vnil : Value
  | vstatus : String → Value
  | verror : String → Value
deriving Repr

mutual

/-- Modelled from the spec: the Session walks a script value once and emits a
typed event stream; an array emits array-start with its declared length, the
element streams in order, then array-end. -/
def serializeValue : Value → List Event
  | Value.vbool b => [Event.onBool b]
  | Value.vstr s => [Event.onString s]
  | Value.vdouble d => [Event.onDouble d]
  | Value.vint n => [Event.onInt n]
  | Value.varr elems =>
      Event.onArrayStart elems.length :: serializeList elems ++ [Event.onArrayEnd]
  | Value.vnil => [Event.onNil]
  | Value.vstatus s => [Event.onStatus s]
  | Value.verror s => [Event.onError s]

/-- Serialization of a list of values: element streams in order. -/
def serializeList : List Value → List Event
  | [] => []
  | v :: rest => serializeValue v ++ serializeList rest

end

mutual

/-- `WFElem es`: the event list `es` is exactly one well-formed serialized
element: a single scalar event, or an array whose start event declares the
number of top-level elements before its matching end. -/
inductive WFElem : List Event → Prop where
  | bool (b : Bool) : WFElem [Event.onBool b]
  | str (s : String) : WFElem [Event.onString s]
  | double (d : Int) : WFElem [Event.onDouble d]
  | int (n : Int) : WFElem [Event.onInt n]
  | nil : WFElem [Event.onNil]
  | status (s : String) : WFElem [Event.onStatus s]
  | error (s : String) : WFElem [Event.onError s]
  | arr (n : Nat) (es : List Event) : WFSeq n es →
      WFElem (Event.onArrayStart n :: es ++ [Event.onArrayEnd])

/-- `WFSeq n es`: `es` is the concatenation of exactly `n` well-formed
elements (the `n` top-level events between an array start and its end). -/
inductive WFSeq : Nat → List Event → Prop where
  | nil : WFSeq 0 []
  | cons (e es : List Event) (n : Nat) : WFElem e → WFSeq n es →
      WFSeq (n + 1) (e ++ es)

end

mutual

/-- Every value serializes to a single well-formed element stream. -/
theorem wfElem_serializeValue : ∀ v : Value, WFElem (serializeValue v)
  | Value.vbool b => by simpa [serializeValue] using WFElem.bool b
  | Value.vstr s => by simpa [serializeValue] using WFElem.str s
  | Value.vdouble d => by simpa [serializeValue] using WFElem.double d
  | Value.vint n => by simpa [serializeValue] using WFElem.int n
  | Value.vnil => by simpa [serializeValue] using WFElem.nil
  | Value.vstatus s => by simpa [serializeValue] using WFElem.status s
  | Value.verror s => by simpa [serializeValue] using WFElem.error s
  | Value.varr elems => by
      simpa [serializeValue] using
        WFElem.arr elems.length (serializeList elems) (wfSeq_serializeList elems)

/-- A list of `n` values serializes to a well-formed sequence of `n` elements. -/
theorem wfSeq_serializeList : ∀ l : List Value, WFSeq l.length (serializeList l)
  | [] => by simpa [serializeList] using WFSeq.nil
  | v :: rest => by
      simpa [serializeList] using
        WFSeq.cons (serializeValue v) (serializeList rest) rest.length
          (wfElem_serializeValue v) (wfSeq_serializeList rest)

end

/-! ## Interpreter session -/

/-- Modelled from the spec: the observable behaviour of one compiled unit when
invoked.  A script issues an ordered sequence of Command Bridge calls — each a
pair of the `raise_error` flag (call vs pcall) and a Command Argument Set —
and then finishes from the list of values the bridge handed back, either
producing a result value or raising a script-level runtime error. -/
structure Script where
  calls : List (Bool × List String)
  finish : List Value → Except String Value

/-- Modelled from the spec: the embedded-engine interface the core consumes —
`compile(body) -> CompiledUnit | CompileError` (here `some diagnostic` on
failure, `none` on success) and `invoke(CompiledUnit) -> Value | RuntimeError`
(here the behaviour of the compiled body, as a `Script`). -/
structure Engine where
  compile : Body → Option String
  behavior : Body → Script

/-- The `Interpreter` session state: the engine instance (`lua_`), the command
dispatcher hook (`redis_func_`), the script cache mapping function ids to
compiled bodies, the reentrancy depth counter (`cmd_depth_`), and the pending
last result awaiting `Serialize`. -/
@[ext]
structure Interpreter where
  engine : Engine
  redis_func : List String → Except String Value
  cache : List (String × Body)
  cmd_depth : Nat
  lastResult : Option Value

/-- `Interpreter::AddResult` from the header: `OK`, `ALREADY_EXISTS`,
`COMPILE_ERR`. -/
inductive AddResult where
  | ok : AddResult
  | alreadyExists : AddResult
  | compileErr : AddResult
deriving DecidableEq, Repr

/-- Output of `AddFunction`: the new session state, the `AddResult` code, and
the out-parameter `*result` (function id, or error text on `COMPILE_ERR`). -/
structure AddOut where
  st : Interpreter
  res : AddResult
  str : String

/-- Output of `RunFunction`: the new session state, the success flag, and the
error out-parameter. -/
structure RunOut where
  st : Interpreter
  ok : Bool
  err : Option String

/-- Output of `Execute`: the new session state, the success flag, the
`f_id[41]` out-buffer (its 40-character id), and the error out-parameter. -/
structure ExecOut where
  st : Interpreter
  ok : Bool
  f_id : String
  err : Option String

/-- Output of `Serialize`: the new session state and the drained event stream
(`none` when there was no pending result and the call fails). -/
structure SerOut where
  st : Interpreter
  events : Option (List Event)

/-- Cache lookup (`lookup(id) -> Option<CompiledUnit>`): pure read. -/
def lookupCache : List (String × Body) → String → Option Body
  | [], _ => none
  | (k, b) :: rest, f_id => if k = f_id then some b else lookupCache rest f_id

/-- Modelled from the spec: the NotFound-style error `RunFunction` reports for
an id with no cached unit. -/
def notFoundErr : String := "function not found"

/-- Modelled from the spec: `RedisGenericCommand(raise_error)` — the Command
Bridge.  It increments the reentrancy depth on entry, executes the Command
Argument Set through the dispatcher, and decrements the depth on exit,
including on the raise path.  On a command-level error: the error-propagating
variant (`raise_error = true`, `RedisCallCommand`) raises it as a fatal engine
error; the error-trapping variant (`RedisPCallCommand`) hands it back to the
script as an error-shaped value. -/
def redisGenericCommand (dispatch : List String → Except String Value)
    (raise_error : Bool) (args : List String) (depth : Nat) :
    Nat × Except String Value :=
  let entered := depth + 1
  let outcome :=
    match dispatch args with
    | Except.ok v => Except.ok v
    | Except.error e =>
        if raise_error then Except.error e else Except.ok (Value.verror e)
  (entered - 1, outcome)

/-- Runs a script's bridge calls in order, threading the depth counter and
accumulating the values handed back to the script; a fatal (raised) error
unwinds the invocation. -/
def runCalls (dispatch : List String → Except String Value) (depth : Nat)
    (acc : List Value) : List (Bool × List String) → Nat × Except String (List Value)
  | [] => (depth, Except.ok acc.reverse)
  | (r, args) :: rest =>
      match redisGenericCommand dispatch r args depth with
      | (d, Except.error e) => (d, Except.error e)
      | (d, Except.ok v) => runCalls dispatch d (v :: acc) rest

/-- Modelled from the spec: one invocation of a compiled unit.  The reentrancy
depth is reset to zero at entry; the script's bridge calls run through the
dispatcher; the final depth and either a runtime error (a raised bridge error
or a script-level error) or the produced value are returned. -/
def invokeResult (eng : Engine) (dispatch : List String → Except String Value)
    (body : Body) : Nat × Except String Value :=
  let sc := eng.behavior body
  match runCalls dispatch 0 [] sc.calls with
  | (d, Except.error e) => (d, Except.error e)
  | (d, Except.ok vs) => (d, sc.finish vs)

/-- Invoking a compiled unit inside the session: on success the produced value
becomes the pending last result; on a runtime error the invocation is aborted,
no result is pending, and the session stays usable. -/
def invokeUnit (st : Interpreter) (body : Body) : RunOut :=
  match invokeResult st.engine st.redis_func body with
  | (d, Except.error e) =>
      ⟨{ st with lastResult := none, cmd_depth := d }, false, some e⟩
  | (d, Except.ok v) =>
      ⟨{ st with lastResult := some v, cmd_depth := d }, true, none⟩

/-- Modelled from the spec: `AddFunction(body, result)` computes
`id = Hash(body)` and delegates to cache registration: if the id is already
bound, `ALREADY_EXISTS` without recompiling and without comparing bodies;
otherwise compile — on failure `COMPILE_ERR` with the engine's diagnostic and
no binding; on success bind the id and return `OK` with the id. -/
def addFunction (st : Interpreter) (body : Body) : AddOut :=
  match lookupCache st.cache (funcId body) with
  | some _ => ⟨st, AddResult.alreadyExists, funcId body⟩
  | none =>
      match st.engine.compile body with
      | some diag => ⟨st, AddResult.compileErr, diag⟩
      | none =>
          ⟨{ st with cache := (funcId body, body) :: st.cache },
            AddResult.ok, funcId body⟩

/-- Modelled from the spec: `RunFunction(f_id, err)` looks up the compiled
unit; fails NotFound if absent; otherwise invokes it with the reentrancy depth
reset to zero at entry. -/
def runFunction (st : Interpreter) (f_id : String) : RunOut :=
  match lookupCache st.cache f_id with
  | none => ⟨st, false, some notFoundErr⟩
  | some body => invokeUnit st body

/-- Packaging a run outcome as an `Execute` outcome with the assigned id. -/
def execOf (r : RunOut) (f_id : String) : ExecOut :=
  ⟨r.st, r.ok, f_id, r.err⟩

/-- Modelled from the spec: `Execute(body, f_id, err)` — the add+run fusion.
The assigned id is always written to the `f_id` buffer; a cached unit is run
directly, an unseen body is compiled (failing with the compile diagnostic) and
then run. -/
def execute (st : Interpreter) (body : Body) : ExecOut :=
  match lookupCache st.cache (funcId body) with
  | some cached => execOf (invokeUnit st cached) (funcId body)
  | none =>
      match st.engine.compile body with
      | some diag => ⟨st, false, funcId body, some diag⟩
      | none =>
          execOf
            (invokeUnit { st with cache := (funcId body, body) :: st.cache } body)
            (funcId body)

/-- Follows the spec's words: `AddFunction` followed immediately by
`RunFunction` on the returned id, when `AddFunction` does not fail with
`COMPILE_ERR`; used as the comparison point for the `Execute` fusion. -/
def addThenRun (st : Interpreter) (body : Body) : ExecOut :=
  match addFunction st body with
  | ⟨st1, AddResult.compileErr, diag⟩ => ⟨st1, false, funcId body, some diag⟩
  | ⟨st1, _, f_id⟩ => execOf (runFunction st1 f_id) f_id

/-- Modelled from the spec: `Serialize(sink, err)` drains the session's
pending last result through the visitor contract; it fails exactly when no
result is pending. -/
def serialize (st : Interpreter) : SerOut :=
  match st.lastResult with
  | none => ⟨st, none⟩
  | some v => ⟨{ st with lastResult := none }, some (serializeValue v)⟩

/-! ## Helper lemmas -/

theorem redisGenericCommand_fst (dispatch : List String → Except String Value)
    (r : Bool) (args : List String) (d : Nat) :
    (redisGenericCommand dispatch r args d).1 = d := by
  unfold redisGenericCommand
  simp

theorem runCalls_fst (dispatch : List String → Except String Value)
    (cs : List (Bool × List String)) :
    ∀ (d : Nat) (acc : List Value), (runCalls dispatch d acc cs).1 = d := by
  induction cs with
  | nil => intro d acc; simp [runCalls]
  | cons c rest ih =>
      intro d acc
      obtain ⟨r, args⟩ := c
      have hfst := redisGenericCommand_fst dispatch r args d
      rcases hb : redisGenericCommand dispatch r args d with ⟨d1, res⟩
      rw [hb] at hfst
      simp at hfst
      subst hfst
      cases res with
      | error e => simp [runCalls, hb]
      | ok v => simp [runCalls, hb, ih]

theorem invokeResult_fst (eng : Engine)
    (dispatch : List String → Except String Value) (body : Body) :
    (invokeResult eng dispatch body).1 = 0 := by
  unfold invokeResult
  have h := runCalls_fst dispatch (eng.behavior body).calls 0 []
  rcases hb : runCalls dispatch 0 [] (eng.behavior body).calls with ⟨d, res⟩
  rw [hb] at h
  simp at h
  subst h
  cases res <;> simp [hb]

/-- The outcome of one invocation, as a pure function of engine, dispatcher
and body: the pending-result slot, the success flag, the error string. -/
def invokeParts (eng : Engine) (dispatch : List String → Except String Value)
    (body : Body) : Option Value × Bool × Option String :=
  match invokeResult eng dispatch body with
  | (_, Except.error e) => (none, false, some e)
  | (_, Except.ok v) => (some v, true, none)

theorem invokeUnit_eq (st : Interpreter) (body : Body) :
    invokeUnit st body =
      ⟨{ st with
          lastResult := (invokeParts st.engine st.redis_func body).1,
          cmd_depth := 0 },
        (invokeParts st.engine st.redis_func body).2.1,
        (invokeParts st.engine st.redis_func body).2.2⟩ := by
  have h := invokeResult_fst st.engine st.redis_func body
  rcases hb : invokeResult st.engine st.redis_func body with ⟨d, res⟩
  rw [hb] at h
  simp at h
  subst h
  cases res <;> simp [invokeUnit, invokeParts, hb]

theorem toHex40_length (n : Nat) : (toHex40 n).length = 40 := by
  simp [toHex40]

theorem hexChar_isLowerHexDigit : ∀ m : Nat, m < 16 → IsLowerHexDigit (hexChar m) := by
  decide

theorem mem_toHex40_isLowerHexDigit (n : Nat) :
    ∀ c ∈ toHex40 n, IsLowerHexDigit c := by
  intro c hc
  simp only [toHex40, List.mem_map, List.mem_range] at hc
  obtain ⟨i, _, rfl⟩ := hc
  exact hexChar_isLowerHexDigit _ (Nat.mod_lt _ (by norm_num))

theorem invokeParts_of_ok (eng : Engine)
    (dispatch : List String → Except String Value) (b : Body)
    (h : (invokeParts eng dispatch b).2.1 = true) :
    ∃ v, (invokeParts eng dispatch b).1 = some v
      ∧ (invokeParts eng dispatch b).2.2 = none := by
  rcases hb : invokeResult eng dispatch b with ⟨d, res⟩
  cases res with
  | error e => simp [invokeParts, hb] at h
  | ok v => exact ⟨v, by simp [invokeParts, hb]⟩

theorem invokeParts_of_failed (eng : Engine)
    (dispatch : List String → Except String Value) (b : Body)
    (h : (invokeParts eng dispatch b).2.1 = false) :
    (invokeParts eng dispatch b).1 = none
      ∧ ∃ e, (invokeParts eng dispatch b).2.2 = some e := by
  rcases hb : invokeResult eng dispatch b with ⟨d, res⟩
  cases res with
  | error e => exact ⟨by simp [invokeParts, hb], e, by simp [invokeParts, hb]⟩
  | ok v => simp [invokeParts, hb] at h

theorem runFunction_congr (st s2 : Interpreter) (f_id : String)
    (he : s2.engine = st.engine) (hr : s2.redis_func = st.redis_func)
    (hc : s2.cache = st.cache) (h : lookupCache st.cache f_id ≠ none) :
    runFunction s2 f_id = runFunction st f_id := by
  rcases hl : lookupCache st.cache f_id with _ | body
  · exact absurd hl h
  · have hl2 : lookupCache s2.cache f_id = some body := by rw [hc, hl]
    simp only [runFunction, hl, hl2, invokeUnit_eq, he, hr, hc]

/-! ## Concrete sessions used as witnesses -/

/-- A dispatcher that rejects every command, as for an unknown command name. -/
def dispatchErr : List String → Except String Value :=
  fun _ => Except.error "ERR unknown command"

/-- An engine that compiles every body and whose scripts issue no bridge
calls and return nil. -/
def engNull : Engine :=
  ⟨fun _ => none, fun _ => ⟨[], fun _ => Except.ok Value.vnil⟩⟩

/-- A fresh session with an empty cache. -/
def st0 : Interpreter := ⟨engNull, dispatchErr, [], 0, none⟩

/-- An engine that rejects every body with a compile diagnostic. -/
def engBad : Engine :=
  ⟨fun _ => some "unexpected symbol", fun _ => ⟨[], fun _ => Except.ok Value.vnil⟩⟩

/-- A fresh session whose engine rejects every body. -/
def stBad : Interpreter := ⟨engBad, dispatchErr, [], 0, none⟩

/-- An engine where body `[1]` raises a runtime error and any other body
returns the integer 2. -/
def engMix : Engine :=
  ⟨fun _ => none,
    fun b =>
      if b = [1] then ⟨[], fun _ => Except.error "boom"⟩
      else ⟨[], fun _ => Except.ok (Value.vint 2)⟩⟩

/-- A session with two cached units: id "a" (a failing script) and id "b"
(a successful one). -/
def stMix : Interpreter :=
  ⟨engMix, dispatchErr, [("a", [1]), ("b", [2])], 0, none⟩

/-- An engine where body `[1]` issues one error-propagating bridge call and
body `[2]` issues the same call error-trapping and returns whatever value the
bridge handed back. -/
def engTrap : Engine :=
  ⟨fun _ => none,
    fun b =>
      if b = [1] then ⟨[(true, ["BAD"])], fun _ => Except.ok Value.vnil⟩
      else ⟨[(false, ["BAD"])], fun vs => Except.ok (vs.headD Value.vnil)⟩⟩

/-- A session with the two bridge-calling scripts cached as "a" and "b". -/
def stTrap : Interpreter :=
  ⟨engTrap, dispatchErr, [("a", [1]), ("b", [2])], 0, none⟩

/-! ## Claims -/

/-- C2: `FuncSha1(body, fp)` is a pure deterministic function of the bytes of
the body alone: it writes exactly 40 lowercase hexadecimal characters into
`fp[0..39]` and the sentinel 0 into `fp[40]`, and byte-identical bodies yield
identical identities. -/
theorem funcSha1_pure_format (body : Body) :
    (funcSha1 body).length = 41
    ∧ (funcSha1 body).drop 40 = [Char.ofNat 0]
    ∧ (∀ c ∈ (funcSha1 body).take 40, IsLowerHexDigit c)
    ∧ (∀ b2 : Body, body = b2 → funcSha1 body = funcSha1 b2) := by
  have hlen : (toHex40 (digest160 body)).length = 40 := toHex40_length _
  refine ⟨?_, ?_, ?_, ?_⟩
  · simp [funcSha1, hlen]
  · have : (funcSha1 body).drop 40 =
        (toHex40 (digest160 body) ++ [Char.ofNat 0]).drop
          (toHex40 (digest160 body)).length := by
      rw [hlen]; rfl
    rw [this, List.drop_left]
  · intro c hc
    have : (funcSha1 body).take 40 = toHex40 (digest160 body) := by
      conv_lhs => rw [funcSha1, ← hlen]
      exact List.take_left _ _
    rw [this] at hc
    exact mem_toHex40_isLowerHexDigit _ c hc
  · intro b2 h
    rw [h]

/-- C2 witness: the format properties evaluated on a concrete body. -/
theorem funcSha1_pure_format_witness :
    IsLowerHexDigit (Char.ofNat 48) ∧ funcSha1 [1, 2, 3] = funcSha1 [1, 2, 3] :=
  ⟨(funcSha1_pure_format [1, 2, 3]).2.2.1 (Char.ofNat 48) (by decide),
    (funcSha1_pure_format [1, 2, 3]).2.2.2 [1, 2, 3] rfl⟩

/-- C9: every event stream the session emits for one top-level value is
well-formed: array starts and ends nest and balance exactly, each declared
array length equals the number of top-level events between the start and its
matching end, and the length is supplied before any nested event. -/
theorem serialize_wellFormed (v : Value) : WFElem (serializeValue v) :=
  wfElem_serializeValue v

/-- C3: `RunFunction` on an id with no cached unit fails with the
NotFound-style error and leaves the session state unchanged. -/
theorem runFunction_notFound (st : Interpreter) (f_id : String)
    (h : lookupCache st.cache f_id = none) :
    runFunction st f_id = ⟨st, false, some notFoundErr⟩ := by
  simp [runFunction, h]

/-- C3 witness: a fresh session rejects an unknown id and is unchanged. -/
theorem runFunction_notFound_witness :
    runFunction st0 "aa" = ⟨st0, false, some notFoundErr⟩ :=
  runFunction_notFound st0 "aa" rfl

/-- C1: after a first `AddFunction(b)` returning `OK`, a second registration
returns the same id with `ALREADY_EXISTS` (never `COMPILE_ERR`) and an
unchanged session; moreover the second call's outcome is independent of the
compile function and of the body text given the same identity (no recompile,
no body comparison). -/
theorem addFunction_idempotent (st : Interpreter) (b : Body)
    (h : (addFunction st b).res = AddResult.ok) :
    addFunction (addFunction st b).st b =
        ⟨(addFunction st b).st, AddResult.alreadyExists, (addFunction st b).str⟩
    ∧ (∀ (c : Body → Option String) (b2 : Body), funcId b2 = funcId b →
        addFunction
            { (addFunction st b).st with
              engine := ⟨c, (addFunction st b).st.engine.behavior⟩ } b2 =
          ⟨{ (addFunction st b).st with
              engine := ⟨c, (addFunction st b).st.engine.behavior⟩ },
            AddResult.alreadyExists, (addFunction st b).str⟩) := by
  rcases hl : lookupCache st.cache (funcId b) with _ | cb
  · rcases hc : st.engine.compile b with _ | diag
    · constructor
      · simp [addFunction, hl, hc, lookupCache]
      · intro c b2 hb2
        simp [addFunction, hl, hc, lookupCache, hb2]
    · simp [addFunction, hl, hc] at h
  · simp [addFunction, hl] at h

/-- C1 witness: a concrete second registration reports `ALREADY_EXISTS`, even
under a compile function that rejects everything. -/
theorem addFunction_idempotent_witness :
    (addFunction (addFunction st0 [1]).st [1]).res = AddResult.alreadyExists
    ∧ (addFunction
          { (addFunction st0 [1]).st with
            engine := ⟨fun _ => some "x", (addFunction st0 [1]).st.engine.behavior⟩ }
          [1]).res = AddResult.alreadyExists := by
  constructor
  · rw [(addFunction_idempotent st0 [1] (by decide)).1]
  · rw [(addFunction_idempotent st0 [1] (by decide)).2 (fun _ => some "x") [1] rfl]

/-- C10: `AddFunction`'s out-parameter is dual-purpose: on `OK` or
`ALREADY_EXISTS` it holds the 40-character lowercase-hex function id (the
hash of the body); on `COMPILE_ERR` it instead holds the engine's diagnostic
text. -/
theorem addFunction_result_dual (st : Interpreter) (b : Body) :
    ((addFunction st b).res ≠ AddResult.compileErr →
      (addFunction st b).str = funcId b
      ∧ (addFunction st b).str.data.length = 40
      ∧ ∀ c ∈ (addFunction st b).str.data, IsLowerHexDigit c)
    ∧ (∀ diag : String, lookupCache st.cache (funcId b) = none →
        st.engine.compile b = some diag →
        (addFunction st b).res = AddResult.compileErr
        ∧ (addFunction st b).str = diag) := by
  constructor
  · intro h
    have hid : (addFunction st b).str = funcId b := by
      rcases hl : lookupCache st.cache (funcId b) with _ | cb
      · rcases hc : st.engine.compile b with _ | diag
        · simp [addFunction, hl, hc]
        · exact absurd (by simp [addFunction, hl, hc]) h
      · simp [addFunction, hl]
    refine ⟨hid, ?_, ?_⟩
    · rw [hid]; simpa [funcId] using toHex40_length (digest160 b)
    · rw [hid]
      intro c hc
      exact mem_toHex40_isLowerHexDigit (digest160 b) c hc
  · intro diag hl hc
    constructor <;> simp [addFunction, hl, hc]

/-- C10 witness: id format on a successful add; diagnostic text on a failed
one. -/
theorem addFunction_result_dual_witness :
    (addFunction st0 [2]).str = funcId [2]
    ∧ (addFunction stBad [9]).res = AddResult.compileErr
    ∧ (addFunction stBad [9]).str = "unexpected symbol" := by
  refine ⟨((addFunction_result_dual st0 [2]).1 (by decide)).1, ?_, ?_⟩
  · exact ((addFunction_result_dual stBad [9]).2 "unexpected symbol" rfl rfl).1
  · exact ((addFunction_result_dual stBad [9]).2 "unexpected symbol" rfl rfl).2

/-- C6: every Command Bridge invocation leaves the reentrancy depth where it
found it (increment on entry, decrement on every exit including the raise
path), and a session whose depth is zero before `RunFunction` has depth
exactly zero after it returns, on success or failure. -/
theorem cmd_depth_balanced (dispatch : List String → Except String Value)
    (r : Bool) (args : List String) (d : Nat) (st : Interpreter) (f_id : String) :
    (redisGenericCommand dispatch r args d).1 = d
    ∧ (st.cmd_depth = 0 → (runFunction st f_id).st.cmd_depth = 0) := by
  refine ⟨redisGenericCommand_fst dispatch r args d, ?_⟩
  intro h0
  rcases hl : lookupCache st.cache f_id with _ | body
  · simpa [runFunction, hl] using h0
  · simp [runFunction, hl, invokeUnit_eq]

/-- C6 witness: the bridge restores a concrete nonzero depth, and a concrete
run returns the depth to zero. -/
theorem cmd_depth_balanced_witness :
    (redisGenericCommand dispatchErr true ["PING"] 3).1 = 3
    ∧ (runFunction stMix "a").st.cmd_depth = 0 :=
  ⟨(cmd_depth_balanced dispatchErr true ["PING"] 3 stMix "a").1,
    (cmd_depth_balanced dispatchErr true ["PING"] 3 stMix "a").2 rfl⟩

/-- C5: a `COMPILE_ERR` leaves the session untouched, and a failed
`RunFunction` preserves the cache, the engine and the dispatcher hook, leaves
no result pending (when the unit existed), and any previously cached id still
runs exactly as it would have without the intervening failure. -/
theorem failure_contained (st : Interpreter) (b : Body) (f_id f2 : String) :
    ((addFunction st b).res = AddResult.compileErr → (addFunction st b).st = st)
    ∧ ((runFunction st f_id).ok = false →
        (runFunction st f_id).st.cache = st.cache
        ∧ (runFunction st f_id).st.engine = st.engine
        ∧ (runFunction st f_id).st.redis_func = st.redis_func
        ∧ (lookupCache st.cache f_id ≠ none →
            (runFunction st f_id).st.lastResult = none)
        ∧ (lookupCache st.cache f2 ≠ none →
            runFunction (runFunction st f_id).st f2 = runFunction st f2)) := by
  constructor
  · intro h
    rcases hl : lookupCache st.cache (funcId b) with _ | cb
    · rcases hc : st.engine.compile b with _ | diag
      · simp [addFunction, hl, hc] at h
      · simp [addFunction, hl, hc]
    · simp [addFunction, hl] at h
  · intro hfail
    rcases hl : lookupCache st.cache f_id with _ | body
    · refine ⟨by simp [runFunction, hl], by simp [runFunction, hl],
        by simp [runFunction, hl], fun hmem => (hmem rfl).elim, fun hmem => ?_⟩
      simp [runFunction, hl]
    · have hok : (invokeParts st.engine st.redis_func body).2.1 = false := by
        have := hfail
        rw [runFunction, hl] at this
        simpa [invokeUnit_eq] using this
      obtain ⟨hnone, _⟩ := invokeParts_of_failed st.engine st.redis_func body hok
      refine ⟨by simp [runFunction, hl, invokeUnit_eq],
        by simp [runFunction, hl, invokeUnit_eq],
        by simp [runFunction, hl, invokeUnit_eq],
        fun _ => by simp [runFunction, hl, invokeUnit_eq, hnone],
        fun hmem => ?_⟩
      exact runFunction_congr st _ f2 (by simp [runFunction, hl, invokeUnit_eq])
        (by simp [runFunction, hl, invokeUnit_eq])
        (by simp [runFunction, hl, invokeUnit_eq]) hmem

/-- C5 witness: a concrete compile error leaves the session intact; after a
concrete failed run, no result is pending and another cached unit runs
unchanged. -/
theorem failure_contained_witness :
    (addFunction stBad [9]).st = stBad
    ∧ (runFunction stMix "a").st.lastResult = none
    ∧ runFunction (runFunction stMix "a").st "b" = runFunction stMix "b" := by
  refine ⟨(failure_contained stBad [9] "a" "b").1 (by decide), ?_, ?_⟩
  · exact ((failure_contained stMix [3] "a" "b").2 (by decide)).2.2.2.1 (by decide)
  · exact ((failure_contained stMix [3] "a" "b").2 (by decide)).2.2.2.2 (by decide)

/-- C8: `Serialize` fails exactly when the session has no pending result; a
successful run leaves its produced value pending and `Serialize` then drains
exactly that value's event stream; a failed run of an existing unit leaves
nothing to serialize. -/
theorem serialize_fails_iff (st : Interpreter) (f_id : String) :
    ((serialize st).events = none ↔ st.lastResult = none)
    ∧ ((runFunction st f_id).ok = true →
        ∃ v, (runFunction st f_id).st.lastResult = some v
          ∧ (serialize (runFunction st f_id).st).events = some (serializeValue v))
    ∧ (lookupCache st.cache f_id ≠ none → (runFunction st f_id).ok = false →
        (serialize (runFunction st f_id).st).events = none) := by
  refine ⟨?_, ?_, ?_⟩
  · rcases h : st.lastResult with _ | v <;> simp [serialize, h]
  · intro hok
    rcases hl : lookupCache st.cache f_id with _ | body
    · simp [runFunction, hl] at hok
    · have hb : (invokeParts st.engine st.redis_func body).2.1 = true := by
        rw [runFunction, hl] at hok
        simpa [invokeUnit_eq] using hok
      obtain ⟨v, hv, _⟩ := invokeParts_of_ok st.engine st.redis_func body hb
      exact ⟨v, by simp [runFunction, hl, invokeUnit_eq, hv],
        by simp [runFunction, hl, invokeUnit_eq, hv, serialize]⟩
  · intro hmem hfail
    rcases hl : lookupCache st.cache f_id with _ | body
    · exact absurd hl hmem
    · have hb : (invokeParts st.engine st.redis_func body).2.1 = false := by
        rw [runFunction, hl] at hfail
        simpa [invokeUnit_eq] using hfail
      obtain ⟨hnone, _⟩ := invokeParts_of_failed st.engine st.redis_func body hb
      simp [runFunction, hl, invokeUnit_eq, hnone, serialize]

/-- C8 witness: serialization fails on a fresh session, succeeds after the
successful cached run, fails after the failing one. -/
theorem serialize_fails_iff_witness :
    (serialize stMix).events = none
    ∧ (∃ v, (runFunction stMix "b").st.lastResult = some v
        ∧ (serialize (runFunction stMix "b").st).events = some (serializeValue v))
    ∧ (serialize (runFunction stMix "a").st).events = none := by
  refine ⟨?_, ?_, ?_⟩
  · exact ((serialize_fails_iff stMix "b").1).2 rfl
  · exact (serialize_fails_iff stMix "b").2.1 (by decide)
  · exact (serialize_fails_iff stMix "a").2.2 (by decide) (by decide)

/-- C4: `Execute(body)` is observably equivalent to `AddFunction(body)`
followed immediately by `RunFunction` on the returned id; it always writes the
assigned 40-character id into the `f_id` buffer; and when compilation does not
fail, re-running that id afterwards produces the same result as re-executing
the body directly. -/
theorem execute_refines (st : Interpreter) (b : Body) :
    execute st b = addThenRun st b
    ∧ (execute st b).f_id = funcId b
    ∧ (execute st b).f_id.data.length = 40
    ∧ (st.engine.compile b = none →
        runFunction (execute st b).st (execute st b).f_id =
          ⟨(execute (execute st b).st b).st, (execute (execute st b).st b).ok,
            (execute (execute st b).st b).err⟩) := by
  have hfid : ∀ e : ExecOut, e.f_id = funcId b → e.f_id.data.length = 40 := by
    intro e he
    rw [he]
    simpa [funcId] using toHex40_length (digest160 b)
  rcases hl : lookupCache st.cache (funcId b) with _ | cached
  · rcases hc : st.engine.compile b with _ | diag
    · have hcache : (invokeUnit { st with
          cache := (funcId b, b) :: st.cache } b).st.cache =
            (funcId b, b) :: st.cache := by
        simp [invokeUnit_eq]
      refine ⟨?_, ?_, ?_, ?_⟩
      · simp [execute, addThenRun, addFunction, runFunction, hl, hc, lookupCache]
      · simp [execute, hl, hc, execOf]
      · exact hfid _ (by simp [execute, hl, hc, execOf])
      · intro _
        have hl2 : lookupCache (execute st b).st.cache (funcId b) = some b := by
          simp [execute, hl, hc, execOf, hcache, lookupCache]
        simp only [execute, hl, hc, execOf] at hl2 ⊢
        simp [runFunction, hl2, execute, hl2, execOf]
    · refine ⟨?_, ?_, ?_, ?_⟩
      · simp [execute, addThenRun, addFunction, hl, hc]
      · simp [execute, hl, hc]
      · exact hfid _ (by simp [execute, hl, hc])
      · intro h0
        exact absurd h0 (by simp)
  · have hcache : (invokeUnit st cached).st.cache = st.cache := by
      simp [invokeUnit_eq]
    refine ⟨?_, ?_, ?_, ?_⟩
    · simp [execute, addThenRun, addFunction, runFunction, hl, execOf]
    · simp [execute, hl, execOf]
    · exact hfid _ (by simp [execute, hl, execOf])
    · intro _
      have hl2 : lookupCache (execute st b).st.cache (funcId b) = some cached := by
        simp [execute, hl, execOf, hcache]
      simp only [execute, hl, execOf] at hl2 ⊢
      simp [runFunction, hl2, execute, execOf]

/-- C4 witness: the equivalence and the rerun property on a fresh session and
a concrete body. -/
theorem execute_refines_witness :
    execute st0 [1] = addThenRun st0 [1]
    ∧ runFunction (execute st0 [1]).st (execute st0 [1]).f_id =
        ⟨(execute (execute st0 [1]).st [1]).st, (execute (execute st0 [1]).st [1]).ok,
          (execute (execute st0 [1]).st [1]).err⟩ :=
  ⟨(execute_refines st0 [1]).1, (execute_refines st0 [1]).2.2.2 rfl⟩

/-- C7: an error-propagating bridge call whose command fails aborts the
invocation — `RunFunction` reports the dispatcher's error as a runtime
failure — while an error-trapping call with the same failing command does not
abort: the script receives the error-shaped value and a subsequent
`Serialize` yields exactly one error-line event. -/
theorem bridge_error_modes (st : Interpreter) (b : Body) (f_id : String)
    (args : List String) (e : String) (fin : List Value → Except String Value)
    (hdisp : st.redis_func args = Except.error e)
    (hfound : lookupCache st.cache f_id = some b) :
    (st.engine.behavior b = ⟨[(true, args)], fin⟩ →
      (runFunction st f_id).ok = false ∧ (runFunction st f_id).err = some e)
    ∧ (st.engine.behavior b =
          ⟨[(false, args)], fun vs => Except.ok (vs.headD Value.vnil)⟩ →
      (runFunction st f_id).ok = true
      ∧ (serialize (runFunction st f_id).st).events = some [Event.onError e]) := by
  constructor
  · intro hb
    constructor <;>
      simp [runFunction, hfound, invokeUnit, invokeResult, hb, runCalls,
        redisGenericCommand, hdisp]
  · intro hb
    constructor <;>
      simp [runFunction, hfound, invokeUnit, invokeResult, hb, runCalls,
        redisGenericCommand, hdisp, serialize, serializeValue]

/-- C7 witness: the concrete session `stTrap` — the raising script fails with
the dispatcher's error, the trapping script succeeds and serializes an
error-line event. -/
theorem bridge_error_modes_witness :
    ((runFunction stTrap "a").ok = false
      ∧ (runFunction stTrap "a").err = some "ERR unknown command")
    ∧ ((runFunction stTrap "b").ok = true
      ∧ (serialize (runFunction stTrap "b").st).events =
          some [Event.onError "ERR unknown command"]) := by
  constructor
  · exact (bridge_error_modes stTrap [1] "a" ["BAD"] "ERR unknown command"
      (fun _ => Except.ok Value.vnil) rfl (by decide)).1 rfl
  · exact (bridge_error_modes stTrap [2] "b" ["BAD"] "ERR unknown command"
      (fun _ => Except.ok Value.vnil) rfl (by decide)).2 rfl

end Dfly
